import Mathlib

/-!
Verification of the GAMIFIED repository's offline progress-sync design.

The repository's source tree retains only the frontend shell (`App.jsx`),
the Tailwind configuration and documentation; the Local Profile Store,
the Sync Reconciler and the Django Progress API that the specification
describes are declared and exercised there but their implementation files
are absent.  Definitions for those components are therefore modelled from
the specification text (each such definition says so in its doc comment),
while the presentation-layer definitions are embedded directly from
`frontend/src/App.jsx`.
-/

namespace Gamified

/-- A per-level progress record as held by the Local Profile Store:
level identifier, best score, attempt count, completion time and a
last-modified timestamp (spec §3, ProgressEntry). -/
structure ProgressEntry where
  level_id : Nat
  score : Nat
  attempts : Nat
  completion_time : Nat
  last_modified : Nat
deriving DecidableEq, Repr

/-- A progress record as the server returns it: the PATCH response body
carries `{level_id, score, attempts, completion_time}` and no local
last-modified stamp (spec §6). -/
structure ServerEntry where
  level_id : Nat
  score : Nat
  attempts : Nat
  completion_time : Nat
deriving DecidableEq, Repr

/-- Forget the local last-modified stamp of a stored entry. -/
def ProgressEntry.toServer (e : ProgressEntry) : ServerEntry :=
  ⟨e.level_id, e.score, e.attempts, e.completion_time⟩

/-- A device-local avatar profile: selected avatar, monotonic version
counter, last-updated timestamp and the progress collection keyed by
level identifier (spec §3, DeviceProfile). -/
structure DeviceProfile where
  device_id : String
  avatar : Option Nat
  version : Nat
  last_updated : Nat
  progress : List ProgressEntry
deriving DecidableEq, Repr

/-- Modelled from the spec: the additive upsert rule of
`upsertProgress` (§4.1) applied to a level that already has a stored
entry.  Best score becomes `max(existing.score, new.score)` and
attempts become `existing.attempts + new.attempts`; the remaining
fields are taken from the new entry. -/
def mergeLocal (existing incoming : ProgressEntry) : ProgressEntry :=
  { incoming with
    score := max existing.score incoming.score
    attempts := existing.attempts + incoming.attempts }

/-- Modelled from the spec: insert or replace the single entry for
`levelId` in the progress list, applying the additive merge rule when
an entry for that level already exists (§4.1). -/
def upsertList (levelId : Nat) (e : ProgressEntry) :
    List ProgressEntry → List ProgressEntry
  | [] => [e]
  | x :: xs =>
    if x.level_id = levelId then mergeLocal x e :: xs
    else x :: upsertList levelId e xs

/-- Look up the entry stored for a level. -/
def findEntry (ps : List ProgressEntry) (levelId : Nat) :
    Option ProgressEntry :=
  ps.find? (fun x => x.level_id = levelId)

/-- Modelled from the spec: `upsertProgress(deviceId, levelId, entry)`
(§4.1) — upsert the entry for the level and, as the side effect of every
mutation, increment the profile's local version counter and stamp
last-updated with the current time. -/
def upsertProgress (p : DeviceProfile) (levelId : Nat)
    (e : ProgressEntry) (now : Nat) : DeviceProfile :=
  { p with
    progress := upsertList levelId e p.progress
    version := p.version + 1
    last_updated := now }

/-- Number of stored entries for a level (the uniqueness invariant of
spec §3 is that this is at most one). -/
def countLevel (levelId : Nat) (ps : List ProgressEntry) : Nat :=
  (ps.filter (fun x => x.level_id = levelId)).length

/-- Apply a sequence of `upsertProgress` calls for one level. -/
def applyCalls (p : DeviceProfile) (levelId : Nat)
    (es : List ProgressEntry) (now : Nat) : DeviceProfile :=
  es.foldl (fun q e => upsertProgress q levelId e now) p

/-- Maximum of the submitted scores of a list of entries. -/
def maxScore (es : List ProgressEntry) : Nat :=
  es.foldl (fun m e => max m e.score) 0

/-- Sum of the submitted attempts of a list of entries. -/
def sumAttempts (es : List ProgressEntry) : Nat :=
  es.foldl (fun a e => a + e.attempts) 0

theorem countLevel_eq_zero {L : Nat} {ps : List ProgressEntry}
    (h : countLevel L ps = 0) : ∀ x ∈ ps, x.level_id ≠ L := by
  intro x hx
  have hfil := List.length_eq_zero.mp h
  intro hxe
  have : x ∈ ps.filter (fun y => y.level_id = L) :=
    List.mem_filter.mpr ⟨hx, by simp [hxe]⟩
  simp [hfil] at this

theorem mergeLocal_level_id (w e : ProgressEntry) :
    (mergeLocal w e).level_id = e.level_id := rfl

theorem upsertList_append_free {L : Nat} {front : List ProgressEntry}
    (hf : ∀ x ∈ front, x.level_id ≠ L) (e w : ProgressEntry)
    (hw : w.level_id = L) (rest : List ProgressEntry) :
    upsertList L e (front ++ w :: rest) = front ++ mergeLocal w e :: rest := by
  induction front with
  | nil => simp [upsertList, hw]
  | cons x xs ih =>
    have hx : x.level_id ≠ L := hf x (by simp)
    simp only [List.cons_append, upsertList, if_neg hx]
    exact congrArg (x :: ·) (ih (fun y hy => hf y (by simp [hy])))

theorem upsertList_absent {L : Nat} {ps : List ProgressEntry}
    (h : ∀ x ∈ ps, x.level_id ≠ L) (e : ProgressEntry) :
    upsertList L e ps = ps ++ [e] := by
  induction ps with
  | nil => simp [upsertList]
  | cons x xs ih =>
    have hx : x.level_id ≠ L := h x (by simp)
    simp only [upsertList, if_neg hx, List.cons_append]
    rw [ih (fun y hy => h y (by simp [hy]))]

theorem findEntry_append_free {L : Nat} {front : List ProgressEntry}
    (hf : ∀ x ∈ front, x.level_id ≠ L) (w : ProgressEntry)
    (hw : w.level_id = L) (rest : List ProgressEntry) :
    findEntry (front ++ w :: rest) L = some w := by
  induction front with
  | nil => simp [findEntry, List.find?, hw]
  | cons x xs ih =>
    have hx : x.level_id ≠ L := hf x (by simp)
    have hd : decide (x.level_id = L) = false := decide_eq_false hx
    simp only [findEntry, List.cons_append, List.find?, hd]
    exact ih (fun y hy => hf y (by simp [hy]))

theorem countLevel_append_free {L : Nat} {front : List ProgressEntry}
    (hf : ∀ x ∈ front, x.level_id ≠ L) (w : ProgressEntry)
    (hw : w.level_id = L) :
    countLevel L (front ++ [w]) = 1 := by
  induction front with
  | nil => simp [countLevel, List.filter, hw]
  | cons x xs ih =>
    have hx : x.level_id ≠ L := hf x (by simp)
    have hd : decide (x.level_id = L) = false := decide_eq_false hx
    simp only [countLevel, List.cons_append, List.filter, hd] at *
    exact ih (fun y hy => hf y (by simp [hy]))

theorem foldl_upsert_free {L : Nat} {front rest : List ProgressEntry}
    (hf : ∀ x ∈ front, x.level_id ≠ L) :
    ∀ (es : List ProgressEntry), (∀ e ∈ es, e.level_id = L) →
      ∀ (w : ProgressEntry), w.level_id = L →
      es.foldl (fun ps e => upsertList L e ps) (front ++ w :: rest)
        = front ++ es.foldl mergeLocal w :: rest := by
  intro es
  induction es with
  | nil => intro _ w _; simp
  | cons e es ih =>
    intro hes w hw
    have he : e.level_id = L := hes e (by simp)
    simp only [List.foldl_cons]
    rw [upsertList_append_free hf e w hw rest]
    exact ih (fun y hy => hes y (by simp [hy])) (mergeLocal w e)
      (by rw [mergeLocal_level_id]; exact he)

theorem foldl_mergeLocal_score (es : List ProgressEntry) :
    ∀ w : ProgressEntry,
      (es.foldl mergeLocal w).score
        = es.foldl (fun m e => max m e.score) w.score := by
  induction es with
  | nil => intro w; rfl
  | cons e es ih =>
    intro w
    simp only [List.foldl_cons]
    rw [ih (mergeLocal w e)]
    rfl

theorem foldl_mergeLocal_attempts (es : List ProgressEntry) :
    ∀ w : ProgressEntry,
      (es.foldl mergeLocal w).attempts
        = es.foldl (fun a e => a + e.attempts) w.attempts := by
  induction es with
  | nil => intro w; rfl
  | cons e es ih =>
    intro w
    simp only [List.foldl_cons]
    rw [ih (mergeLocal w e)]
    rfl

theorem foldl_mergeLocal_level_id (es : List ProgressEntry) :
    ∀ w : ProgressEntry, (∀ e ∈ es, e.level_id = w.level_id) →
      (es.foldl mergeLocal w).level_id = w.level_id := by
  induction es with
  | nil => intro w _; rfl
  | cons e es ih =>
    intro w hes
    simp only [List.foldl_cons]
    rw [ih (mergeLocal w e)
      (fun y hy => by
        rw [mergeLocal_level_id, hes e (by simp)]
        exact hes y (by simp [hy]))]
    rw [mergeLocal_level_id]
    exact hes e (by simp)

theorem applyCalls_progress (L now : Nat) :
    ∀ (es : List ProgressEntry) (p : DeviceProfile),
      (applyCalls p L es now).progress
        = es.foldl (fun ps e => upsertList L e ps) p.progress := by
  intro es
  induction es with
  | nil => intro p; rfl
  | cons e es ih =>
    intro p
    simp only [applyCalls, List.foldl_cons] at *
    rw [ih (upsertProgress p L e now)]
    rfl

/-- C1: for every sequence of `upsertProgress` calls for the same
(device, level) pair starting from a store with no entry for that
level, the stored entry's score equals the maximum of all submitted
scores, its attempts equal the sum of all submitted attempts, and the
store holds exactly one entry for that level. -/
theorem upsertProgress_sequence_max_sum (p : DeviceProfile) (L : Nat)
    (es : List ProgressEntry) (now : Nat)
    (h0 : countLevel L p.progress = 0)
    (hes : ∀ e ∈ es, e.level_id = L) (hne : es ≠ []) :
    ∃ w, findEntry (applyCalls p L es now).progress L = some w ∧
      w.score = maxScore es ∧ w.attempts = sumAttempts es ∧
      countLevel L (applyCalls p L es now).progress = 1 := by
  obtain ⟨e0, rest, rfl⟩ := List.exists_cons_of_ne_nil hne
  have hfree : ∀ x ∈ p.progress, x.level_id ≠ L := countLevel_eq_zero h0
  have he0 : e0.level_id = L := hes e0 (by simp)
  have hprog := applyCalls_progress L now (e0 :: rest) p
  simp only [List.foldl_cons] at hprog
  rw [upsertList_absent hfree e0] at hprog
  have hshape : p.progress ++ [e0] = p.progress ++ e0 :: [] := rfl
  rw [hshape] at hprog
  rw [foldl_upsert_free hfree rest (fun y hy => hes y (by simp [hy])) e0 he0]
    at hprog
  have hlev : (rest.foldl mergeLocal e0).level_id = L := by
    rw [foldl_mergeLocal_level_id rest e0
      (fun y hy => by rw [he0]; exact hes y (by simp [hy]))]
    exact he0
  refine ⟨rest.foldl mergeLocal e0, ?_, ?_, ?_, ?_⟩
  · rw [hprog]
    exact findEntry_append_free hfree _ hlev []
  · rw [foldl_mergeLocal_score]
    simp [maxScore]
  · rw [foldl_mergeLocal_attempts]
    simp [sumAttempts]
  · rw [hprog]
    exact countLevel_append_free hfree _ hlev

/-- Concrete instance of C1: two plays of level 1 (score 70, 2 attempts,
then score 85, 1 attempt) leave one entry with score 85 and 3 attempts. -/
theorem upsertProgress_sequence_max_sum_witness :
    ∃ w, findEntry (applyCalls
        { device_id := "d", avatar := none, version := 0,
          last_updated := 0, progress := [] } 1
        [⟨1, 70, 2, 100, 5⟩, ⟨1, 85, 1, 120, 9⟩] 10).progress 1 = some w ∧
      w.score = maxScore [⟨1, 70, 2, 100, 5⟩, ⟨1, 85, 1, 120, 9⟩] ∧
      w.attempts = sumAttempts [⟨1, 70, 2, 100, 5⟩, ⟨1, 85, 1, 120, 9⟩] ∧
      countLevel 1 (applyCalls
        { device_id := "d", avatar := none, version := 0,
          last_updated := 0, progress := [] } 1
        [⟨1, 70, 2, 100, 5⟩, ⟨1, 85, 1, 120, 9⟩] 10).progress = 1 :=
  upsertProgress_sequence_max_sum _ 1 _ 10 (by decide) (by decide) (by decide)

/-- A device-to-server batch: the changed entries plus the profile's
version and last-updated timestamp (spec §3, SyncPayload; §6 PATCH body). -/
structure SyncPayload where
  progress_entries : List ServerEntry
  version : Nat
  last_updated : Nat
deriving DecidableEq, Repr

/-- The server's stored authoritative progress for a device profile. -/
structure ServerState where
  entries : List ServerEntry
  version : Nat
deriving DecidableEq, Repr

/-- The server's PATCH response: authoritative merged entries plus the
new version number (spec §6). -/
structure MergeResult where
  entries : List ServerEntry
  version : Nat
deriving DecidableEq, Repr

/-- Look up the server-side entry for a level. -/
def findServer (es : List ServerEntry) (levelId : Nat) :
    Option ServerEntry :=
  es.find? (fun x => x.level_id = levelId)

/-- Modelled from the spec: the field-level merge of one ProgressEntry
during a server-side conflict merge (§4.2 step 4): keep `max(score)`,
sum `attempts`, keep the later `completion_time` sample. -/
def mergeServerEntry (l s : ServerEntry) : ServerEntry :=
  { level_id := l.level_id
    score := max l.score s.score
    attempts := l.attempts + s.attempts
    completion_time := max l.completion_time s.completion_time }

/-- Merge one submitted batch into one server-held entry: the entry is
field-merged with its submitted counterpart when the batch contains its
level, and kept unchanged otherwise. -/
def mergeWith (locals : List ServerEntry) (srv : ServerEntry) :
    ServerEntry :=
  match findServer locals srv.level_id with
  | some l => mergeServerEntry l srv
  | none => srv

/-- Modelled from the spec: the merged authoritative set (§4.2 step 4) —
every server-held entry field-merged with its submitted counterpart,
followed by the submitted entries for levels the server did not hold. -/
def mergeEntrySets (locals serverEs : List ServerEntry) :
    List ServerEntry :=
  serverEs.map (mergeWith locals)
    ++ locals.filter (fun a => (findServer serverEs a.level_id).isNone)

/-- Modelled from the spec: the Progress API's PATCH handler (§4.2
step 4, §6).  The payload is accepted when the submitted version is
greater than or equal to the stored version; otherwise the sets are
field-merged.  Either way the response carries a version number
strictly greater than both inputs. -/
def serverPatch (payload : SyncPayload) (st : ServerState) :
    MergeResult :=
  if st.version ≤ payload.version then
    { entries := payload.progress_entries
      version := max payload.version st.version + 1 }
  else
    { entries := mergeEntrySets payload.progress_entries st.entries
      version := max payload.version st.version + 1 }

theorem mergeWith_level_id (locals : List ServerEntry)
    (srv : ServerEntry) : (mergeWith locals srv).level_id = srv.level_id := by
  unfold mergeWith
  cases h : findServer locals srv.level_id with
  | none => rfl
  | some a =>
    have ha := List.find?_some h
    simp only [decide_eq_true_eq] at ha
    simpa [mergeServerEntry] using ha

theorem find_append_of_some {α : Type} (p : α → Bool) {as : List α}
    {v : α} (h : as.find? p = some v) (bs : List α) :
    (as ++ bs).find? p = some v := by
  induction as with
  | nil => simp [List.find?] at h
  | cons x xs ih =>
    cases hx : p x with
    | true => simp_all [List.find?]
    | false =>
      simp only [List.find?, hx] at h
      simp only [List.cons_append, List.find?, hx]
      exact ih h

theorem findServer_map_merge {locals : List ServerEntry} {L : Nat}
    {l : ServerEntry} (hl : findServer locals L = some l) :
    ∀ {xs : List ServerEntry} {s : ServerEntry},
      findServer xs L = some s →
      (xs.map (mergeWith locals)).find? (fun a => a.level_id = L)
        = some (mergeServerEntry l s) := by
  intro xs
  induction xs with
  | nil => intro s hs; simp [findServer, List.find?] at hs
  | cons x xs ih =>
    intro s hs
    by_cases hx : x.level_id = L
    · have hsx : s = x := by
        simp [findServer, List.find?, hx] at hs
        exact hs.symm
      have hmw : mergeWith locals x = mergeServerEntry l s := by
        unfold mergeWith
        rw [hsx, hx, hl]
      have hml : (mergeServerEntry l s).level_id = L := by
        rw [← hmw, mergeWith_level_id]; exact hx
      simp [List.find?, hmw, hml]
    · have hs' : findServer xs L = some s := by
        simpa [findServer, List.find?, hx] using hs
      have hml : ¬ (mergeWith locals x).level_id = L := by
        rw [mergeWith_level_id]; exact hx
      simpa [List.find?, hml] using ih hs'

/-- C2: when the submitted version is below the stored version, the
server's merge yields, for a level present on both sides, the field
merge (max score, summed attempts, later completion time), and a new
version strictly greater than both input versions. -/
theorem serverPatch_conflict_merge (payload : SyncPayload)
    (st : ServerState) (L : Nat) (l s : ServerEntry)
    (hv : payload.version < st.version)
    (hl : findServer payload.progress_entries L = some l)
    (hs : findServer st.entries L = some s) :
    findServer (serverPatch payload st).entries L
        = some (mergeServerEntry l s) ∧
      (mergeServerEntry l s).score = max l.score s.score ∧
      (mergeServerEntry l s).attempts = l.attempts + s.attempts ∧
      (mergeServerEntry l s).completion_time
        = max l.completion_time s.completion_time ∧
      payload.version < (serverPatch payload st).version ∧
      st.version < (serverPatch payload st).version := by
  have hcond : ¬ st.version ≤ payload.version := not_le.mpr hv
  refine ⟨?_, rfl, rfl, rfl, ?_, ?_⟩
  · simp only [serverPatch, if_neg hcond, mergeEntrySets]
    exact find_append_of_some _ (findServer_map_merge hl hs) _
  · simp only [serverPatch, if_neg hcond]
    exact Nat.lt_succ_of_le (Nat.le_max_left _ _)
  · simp only [serverPatch, if_neg hcond]
    exact Nat.lt_succ_of_le (Nat.le_max_right _ _)

/-- Concrete instance of C2, the spec's own example: local version 3,
score 70, attempts 2 merged with server version 5, score 85, attempts 1
yields score 85, attempts 3 and version 6. -/
theorem serverPatch_conflict_merge_witness :
    (findServer (serverPatch ⟨[⟨1, 70, 2, 120⟩], 3, 40⟩
          ⟨[⟨1, 85, 1, 100⟩], 5⟩).entries 1
        = some (mergeServerEntry ⟨1, 70, 2, 120⟩ ⟨1, 85, 1, 100⟩) ∧
      (mergeServerEntry ⟨1, 70, 2, 120⟩ ⟨1, 85, 1, 100⟩).score
        = max 70 85 ∧
      (mergeServerEntry ⟨1, 70, 2, 120⟩ ⟨1, 85, 1, 100⟩).attempts
        = 2 + 1 ∧
      (mergeServerEntry ⟨1, 70, 2, 120⟩ ⟨1, 85, 1, 100⟩).completion_time
        = max 120 100 ∧
      3 < (serverPatch ⟨[⟨1, 70, 2, 120⟩], 3, 40⟩
          ⟨[⟨1, 85, 1, 100⟩], 5⟩).version ∧
      5 < (serverPatch ⟨[⟨1, 70, 2, 120⟩], 3, 40⟩
          ⟨[⟨1, 85, 1, 100⟩], 5⟩).version) ∧
      (mergeServerEntry ⟨1, 70, 2, 120⟩ ⟨1, 85, 1, 100⟩).score = 85 ∧
      (mergeServerEntry ⟨1, 70, 2, 120⟩ ⟨1, 85, 1, 100⟩).attempts = 3 ∧
      (serverPatch ⟨[⟨1, 70, 2, 120⟩], 3, 40⟩
          ⟨[⟨1, 85, 1, 100⟩], 5⟩).version = 6 :=
  ⟨serverPatch_conflict_merge ⟨[⟨1, 70, 2, 120⟩], 3, 40⟩
      ⟨[⟨1, 85, 1, 100⟩], 5⟩ 1 ⟨1, 70, 2, 120⟩ ⟨1, 85, 1, 100⟩
      (by decide) (by decide) (by decide),
    by decide, by decide, by decide⟩

/-- The Sync Reconciler's observable status (spec §4.2 state machine):
`idle -> syncing -> {synced, offline, error}`. -/
inductive SyncStatus
  | idle
  | syncing
  | synced
  | offline
  | error
deriving DecidableEq, Repr

/-- The reconciler-side state for one device: the local profile, the
timestamp of the last successful sync and the observable status. -/
structure SyncState where
  profile : DeviceProfile
  lastSyncedAt : Nat
  status : SyncStatus
deriving DecidableEq, Repr

/-- The Progress API's answer to one PATCH: the authoritative merged
entries and new version on success, or an HTTP error code (4xx/5xx). -/
inductive ServerResponse
  | ok (entries : List ServerEntry) (version : Nat)
  | err (code : Nat)
deriving DecidableEq, Repr

/-- Modelled from the spec: step 2 of `sync` (§4.2) — the entries whose
last-modified timestamp is newer than the last successfully-synced
timestamp recorded for this profile. -/
def buildPayload (st : SyncState) : List ProgressEntry :=
  st.profile.progress.filter (fun e => st.lastSyncedAt < e.last_modified)

/-- The SyncPayload sent in step 3 of `sync` (§4.2): the changed
entries plus the profile's current version and last-updated stamp. -/
def syncPayloadOf (st : SyncState) : SyncPayload :=
  ⟨(buildPayload st).map ProgressEntry.toServer,
    st.profile.version, st.profile.last_updated⟩

/-- Re-stamp a server-returned entry as a locally stored one, with the
sync time as its last-modified timestamp. -/
def stampEntry (now : Nat) (e : ServerEntry) : ProgressEntry :=
  ⟨e.level_id, e.score, e.attempts, e.completion_time, now⟩

/-- Modelled from the spec: the `sync(deviceId)` operation (§4.2).
Step 1: if the network is unreachable, transition to `offline` and
return without contacting the server.  Step 2: if nothing changed since
the last successful sync, short-circuit to `synced` without a network
call.  Steps 3–6: send the payload; on success overwrite the local
entries with the server's authoritative merged set and store the new
version; on any server error leave local state untouched and transition
to `error`.  The second component counts the network calls made (0 or 1). -/
def sync (st : SyncState) (reachable : Bool)
    (server : SyncPayload → ServerResponse) (now : Nat) :
    SyncState × Nat :=
  if reachable = false then ({ st with status := .offline }, 0)
  else if (buildPayload st).isEmpty then ({ st with status := .synced }, 0)
  else
    match server (syncPayloadOf st) with
    | .ok entries version =>
        ({ profile := { st.profile with
              progress := entries.map (stampEntry now)
              version := version }
           lastSyncedAt := now
           status := .synced }, 1)
    | .err _ => ({ st with status := .error }, 1)

/-- The Progress API as the spec describes it: every PATCH is answered
by `serverPatch` (§4.2 step 4, §6). -/
def serverRespond (srv : ServerState) (p : SyncPayload) :
    ServerResponse :=
  .ok (serverPatch p srv).entries (serverPatch p srv).version

theorem serverPatch_version (p : SyncPayload) (srv : ServerState) :
    (serverPatch p srv).version = max p.version srv.version + 1 := by
  unfold serverPatch
  split <;> rfl

theorem sync_unreachable (st : SyncState)
    (server : SyncPayload → ServerResponse) (now : Nat) :
    sync st false server now = ({ st with status := .offline }, 0) := rfl

theorem sync_empty_payload (st : SyncState)
    (server : SyncPayload → ServerResponse) (now : Nat)
    (h : (buildPayload st).isEmpty = true) :
    sync st true server now = ({ st with status := .synced }, 0) := by
  simp [sync, h]

theorem sync_success (st : SyncState)
    (server : SyncPayload → ServerResponse) (now : Nat)
    (entries : List ServerEntry) (version : Nat)
    (hne : (buildPayload st).isEmpty = false)
    (hs : server (syncPayloadOf st) = .ok entries version) :
    sync st true server now
      = ({ profile := { st.profile with
              progress := entries.map (stampEntry now)
              version := version }
           lastSyncedAt := now
           status := .synced }, 1) := by
  simp [sync, hne, hs]

theorem sync_server_error (st : SyncState)
    (server : SyncPayload → ServerResponse) (now c : Nat)
    (hne : (buildPayload st).isEmpty = false)
    (hs : server (syncPayloadOf st) = .err c) :
    sync st true server now = ({ st with status := .error }, 1) := by
  simp [sync, hne, hs]

/-- C3: every Local Profile Store mutation increments the profile's
version counter and stamps last-updated with the current time; a sync
that reaches the spec's server strictly increases the stored version,
and no sync ever decreases it — so the version counter is strictly
increasing across every sequence of successful syncs. -/
theorem version_counter_monotone :
    (∀ (p : DeviceProfile) (L : Nat) (e : ProgressEntry) (now : Nat),
        (upsertProgress p L e now).version = p.version + 1 ∧
        (upsertProgress p L e now).last_updated = now) ∧
    (∀ (st : SyncState) (srv : ServerState) (now : Nat),
        (buildPayload st).isEmpty = false →
        st.profile.version
          < (sync st true (serverRespond srv) now).1.profile.version) ∧
    (∀ (st : SyncState) (srv : ServerState) (reachable : Bool) (now : Nat),
        st.profile.version
          ≤ (sync st reachable (serverRespond srv) now).1.profile.version) := by
  refine ⟨fun p L e now => ⟨rfl, rfl⟩, ?_, ?_⟩
  · intro st srv now hne
    rw [sync_success st (serverRespond srv) now _ _ hne rfl]
    show st.profile.version < (serverPatch (syncPayloadOf st) srv).version
    rw [serverPatch_version]
    exact Nat.lt_succ_of_le (Nat.le_max_left _ _)
  · intro st srv reachable now
    cases reachable with
    | false => exact le_refl _
    | true =>
      cases h : (buildPayload st).isEmpty with
      | true => rw [sync_empty_payload st (serverRespond srv) now h]
      | false =>
        rw [sync_success st (serverRespond srv) now _ _ h rfl]
        show st.profile.version ≤ (serverPatch (syncPayloadOf st) srv).version
        rw [serverPatch_version]
        exact Nat.le_succ_of_le (Nat.le_max_left _ _)

/-- Concrete instance of C3: one mutation at time 9 and one full sync
from version 3 against a version-5 server. -/
theorem version_counter_monotone_witness :
    ((upsertProgress ⟨"d", none, 3, 0, []⟩ 1 ⟨1, 70, 2, 100, 5⟩ 9).version
        = (⟨"d", none, 3, 0, []⟩ : DeviceProfile).version + 1 ∧
      (upsertProgress ⟨"d", none, 3, 0, []⟩ 1 ⟨1, 70, 2, 100, 5⟩ 9).last_updated
        = 9) ∧
    ((⟨⟨"d", none, 3, 0, [⟨1, 70, 2, 100, 5⟩]⟩, 0, .idle⟩ :
          SyncState).profile.version
        < (sync ⟨⟨"d", none, 3, 0, [⟨1, 70, 2, 100, 5⟩]⟩, 0, .idle⟩ true
            (serverRespond ⟨[⟨1, 85, 1, 100⟩], 5⟩) 7).1.profile.version) ∧
    ((⟨⟨"d", none, 3, 0, [⟨1, 70, 2, 100, 5⟩]⟩, 0, .idle⟩ :
          SyncState).profile.version
        ≤ (sync ⟨⟨"d", none, 3, 0, [⟨1, 70, 2, 100, 5⟩]⟩, 0, .idle⟩ true
            (serverRespond ⟨[⟨1, 85, 1, 100⟩], 5⟩) 7).1.profile.version) :=
  ⟨version_counter_monotone.1 ⟨"d", none, 3, 0, []⟩ 1 ⟨1, 70, 2, 100, 5⟩ 9,
    version_counter_monotone.2.1 ⟨⟨"d", none, 3, 0, [⟨1, 70, 2, 100, 5⟩]⟩, 0, .idle⟩
      ⟨[⟨1, 85, 1, 100⟩], 5⟩ 7 (by decide),
    version_counter_monotone.2.2 ⟨⟨"d", none, 3, 0, [⟨1, 70, 2, 100, 5⟩]⟩, 0, .idle⟩
      ⟨[⟨1, 85, 1, 100⟩], 5⟩ true 7⟩

/-- C4: a sync that ends in a server error (any 4xx/5xx response)
leaves the Local Profile Store exactly as it was, transitions the
status to `error`, and keeps every unsynced entry eligible for the next
sync's payload. -/
theorem sync_error_preserves_state (st : SyncState)
    (server : SyncPayload → ServerResponse) (now c : Nat)
    (hne : (buildPayload st).isEmpty = false)
    (hs : server (syncPayloadOf st) = .err c) :
    sync st true server now = (⟨st.profile, st.lastSyncedAt, .error⟩, 1) ∧
      buildPayload (sync st true server now).1 = buildPayload st := by
  have h := sync_server_error st server now c hne hs
  refine ⟨h, ?_⟩
  rw [h]
  rfl

/-- Concrete instance of C4: a server answering 500 leaves the store
untouched and the unsynced entry still pending. -/
theorem sync_error_preserves_state_witness :
    sync ⟨⟨"d", none, 3, 0, [⟨1, 70, 2, 100, 5⟩]⟩, 0, .idle⟩ true
        (fun _ => .err 500) 7
      = (⟨⟨"d", none, 3, 0, [⟨1, 70, 2, 100, 5⟩]⟩, 0, .error⟩, 1) ∧
    buildPayload (sync ⟨⟨"d", none, 3, 0, [⟨1, 70, 2, 100, 5⟩]⟩, 0, .idle⟩
        true (fun _ => .err 500) 7).1
      = buildPayload ⟨⟨"d", none, 3, 0, [⟨1, 70, 2, 100, 5⟩]⟩, 0, .idle⟩ :=
  sync_error_preserves_state ⟨⟨"d", none, 3, 0, [⟨1, 70, 2, 100, 5⟩]⟩, 0, .idle⟩
    (fun _ => .err 500) 7 500 (by decide) rfl

/-- C5: a sync while the network is unreachable transitions the status
to `offline`, makes no network call, and leaves the Local Profile Store
byte-for-byte unchanged. -/
theorem sync_offline_noop (st : SyncState)
    (server : SyncPayload → ServerResponse) (now : Nat) :
    sync st false server now = (⟨st.profile, st.lastSyncedAt, .offline⟩, 0) :=
  rfl

theorem buildPayload_after_success (st : SyncState) (srv : ServerState)
    (now : Nat) (hne : (buildPayload st).isEmpty = false) :
    buildPayload (sync st true (serverRespond srv) now).1 = [] := by
  rw [sync_success st (serverRespond srv) now _ _ hne rfl]
  refine List.filter_eq_nil_iff.mpr ?_
  intro a ha
  obtain ⟨e, _, rfl⟩ := List.mem_map.mp ha
  simp [stampEntry, buildPayload]

/-- C6: with no intervening local changes, two back-to-back syncs make
exactly one network call on the first invocation and zero on the
second — the second short-circuits to `synced` with the store unchanged. -/
theorem sync_idempotent_second_no_call (st : SyncState)
    (srv : ServerState) (server2 : SyncPayload → ServerResponse)
    (now now2 : Nat) (hne : (buildPayload st).isEmpty = false) :
    (sync st true (serverRespond srv) now).2 = 1 ∧
      sync (sync st true (serverRespond srv) now).1 true server2 now2
        = (⟨(sync st true (serverRespond srv) now).1.profile,
            (sync st true (serverRespond srv) now).1.lastSyncedAt,
            .synced⟩, 0) := by
  constructor
  · rw [sync_success st (serverRespond srv) now _ _ hne rfl]
  · have hbp : ((buildPayload (sync st true (serverRespond srv) now).1).isEmpty)
        = true := by
      rw [buildPayload_after_success st srv now hne]
      rfl
    exact sync_empty_payload _ server2 now2 hbp

/-- Concrete instance of C6: first sync makes one call, a repeat makes
none and lands in `synced`. -/
theorem sync_idempotent_second_no_call_witness :
    (sync ⟨⟨"d", none, 3, 0, [⟨1, 70, 2, 100, 5⟩]⟩, 0, .idle⟩ true
        (serverRespond ⟨[⟨1, 85, 1, 100⟩], 5⟩) 7).2 = 1 ∧
      sync (sync ⟨⟨"d", none, 3, 0, [⟨1, 70, 2, 100, 5⟩]⟩, 0, .idle⟩ true
          (serverRespond ⟨[⟨1, 85, 1, 100⟩], 5⟩) 7).1 true
          (serverRespond ⟨[⟨1, 85, 1, 100⟩], 5⟩) 9
        = (⟨(sync ⟨⟨"d", none, 3, 0, [⟨1, 70, 2, 100, 5⟩]⟩, 0, .idle⟩ true
              (serverRespond ⟨[⟨1, 85, 1, 100⟩], 5⟩) 7).1.profile,
            (sync ⟨⟨"d", none, 3, 0, [⟨1, 70, 2, 100, 5⟩]⟩, 0, .idle⟩ true
              (serverRespond ⟨[⟨1, 85, 1, 100⟩], 5⟩) 7).1.lastSyncedAt,
            .synced⟩, 0) :=
  sync_idempotent_second_no_call ⟨⟨"d", none, 3, 0, [⟨1, 70, 2, 100, 5⟩]⟩, 0, .idle⟩
    ⟨[⟨1, 85, 1, 100⟩], 5⟩ (serverRespond ⟨[⟨1, 85, 1, 100⟩], 5⟩) 7 9 (by decide)

theorem map_toServer_stamp (now : Nat) (l : List ServerEntry) :
    (l.map (stampEntry now)).map ProgressEntry.toServer = l := by
  induction l with
  | nil => rfl
  | cons x xs ih => simp only [List.map_cons, ih]; rfl

theorem findEntry_map_stamp (now L : Nat) (l : List ServerEntry) :
    findEntry (l.map (stampEntry now)) L
      = (findServer l L).map (stampEntry now) := by
  induction l with
  | nil => rfl
  | cons x xs ih =>
    by_cases hx : x.level_id = L
    · simp [findEntry, findServer, List.find?, stampEntry, hx]
    · simpa [findEntry, findServer, List.find?, stampEntry, hx] using ih

/-- C7: after a successful sync the Local Profile Store holds exactly
the server's authoritative merged set and its new version; re-fetching
any synced level returns exactly the server's returned entry. -/
theorem sync_round_trip (st : SyncState) (srv : ServerState) (now : Nat)
    (hne : (buildPayload st).isEmpty = false) :
    ((sync st true (serverRespond srv) now).1.profile.progress.map
        ProgressEntry.toServer
      = (serverPatch (syncPayloadOf st) srv).entries) ∧
    (sync st true (serverRespond srv) now).1.profile.version
      = (serverPatch (syncPayloadOf st) srv).version ∧
    (sync st true (serverRespond srv) now).1.status = .synced ∧
    ∀ (L : Nat) (se : ServerEntry),
      findServer (serverPatch (syncPayloadOf st) srv).entries L = some se →
      (findEntry (sync st true (serverRespond srv) now).1.profile.progress L).map
          ProgressEntry.toServer = some se := by
  rw [sync_success st (serverRespond srv) now _ _ hne rfl]
  refine ⟨map_toServer_stamp now _, rfl, rfl, ?_⟩
  intro L se hse
  rw [findEntry_map_stamp now L _, hse]
  rfl

/-- Concrete instance of C7: the entry fetched back after a successful
sync is the server's authoritative merged entry. -/
theorem sync_round_trip_witness :
    ((sync ⟨⟨"d", none, 3, 0, [⟨1, 70, 2, 100, 5⟩]⟩, 0, .idle⟩ true
        (serverRespond ⟨[⟨1, 85, 1, 100⟩], 5⟩) 7).1.profile.progress.map
        ProgressEntry.toServer
      = (serverPatch (syncPayloadOf
          ⟨⟨"d", none, 3, 0, [⟨1, 70, 2, 100, 5⟩]⟩, 0, .idle⟩)
          ⟨[⟨1, 85, 1, 100⟩], 5⟩).entries) ∧
    (sync ⟨⟨"d", none, 3, 0, [⟨1, 70, 2, 100, 5⟩]⟩, 0, .idle⟩ true
        (serverRespond ⟨[⟨1, 85, 1, 100⟩], 5⟩) 7).1.profile.version
      = (serverPatch (syncPayloadOf
          ⟨⟨"d", none, 3, 0, [⟨1, 70, 2, 100, 5⟩]⟩, 0, .idle⟩)
          ⟨[⟨1, 85, 1, 100⟩], 5⟩).version ∧
    (sync ⟨⟨"d", none, 3, 0, [⟨1, 70, 2, 100, 5⟩]⟩, 0, .idle⟩ true
        (serverRespond ⟨[⟨1, 85, 1, 100⟩], 5⟩) 7).1.status = .synced ∧
    ∀ (L : Nat) (se : ServerEntry),
      findServer (serverPatch (syncPayloadOf
          ⟨⟨"d", none, 3, 0, [⟨1, 70, 2, 100, 5⟩]⟩, 0, .idle⟩)
          ⟨[⟨1, 85, 1, 100⟩], 5⟩).entries L = some se →
      (findEntry (sync ⟨⟨"d", none, 3, 0, [⟨1, 70, 2, 100, 5⟩]⟩, 0, .idle⟩ true
          (serverRespond ⟨[⟨1, 85, 1, 100⟩], 5⟩) 7).1.profile.progress L).map
          ProgressEntry.toServer = some se :=
  sync_round_trip ⟨⟨"d", none, 3, 0, [⟨1, 70, 2, 100, 5⟩]⟩, 0, .idle⟩
    ⟨[⟨1, 85, 1, 100⟩], 5⟩ 7 (by decide)

/-- An event seen by the Sync Reconciler: a local change (level
completion), a sync trigger, or completion of the in-flight sync. -/
inductive REv
  | localChange (e : ProgressEntry)
  | trigger
  | complete
deriving DecidableEq, Repr

/-- The reconciler's trigger-coalescing state: unsynced changes not yet
sent, the payload of the sync in flight (if any; `Option` makes
at-most-one-in-flight structural), and the log of outbound payloads. -/
structure RState where
  pending : List ProgressEntry
  inFlight : Option (List ProgressEntry)
  sent : List (List ProgressEntry)
deriving DecidableEq, Repr

/-- Modelled from the spec: the trigger discipline of the Sync
Reconciler (§4.2, §5).  A trigger while a sync is in flight is absorbed
rather than starting a second sync; a trigger with nothing pending
short-circuits; otherwise all accumulated changes are sent as one
payload.  A completed sync frees the in-flight slot; changes
accumulated meanwhile are picked up by the next trigger. -/
def rstep (st : RState) : REv → RState
  | .localChange e => { st with pending := st.pending ++ [e] }
  | .trigger =>
    match st.inFlight with
    | some _ => st
    | none =>
      if st.pending.isEmpty then st
      else ⟨[], some st.pending, st.sent ++ [st.pending]⟩
  | .complete => { st with inFlight := none }

/-- Run the reconciler over a sequence of events. -/
def runR (st : RState) (evs : List REv) : RState :=
  evs.foldl rstep st

/-- C8: at most one sync is in flight per device profile — a trigger
arriving while a sync is pending is absorbed, and two back-to-back
triggers produce exactly one outbound payload covering the union of
the accumulated changes. -/
theorem at_most_one_sync_in_flight (st : RState)
    (hin : st.inFlight = none) (hne : st.pending ≠ []) :
    runR st [.trigger, .trigger]
        = ⟨[], some st.pending, st.sent ++ [st.pending]⟩ ∧
      (runR st [.trigger, .trigger]).sent.length = st.sent.length + 1 ∧
      ∀ (q : List ProgressEntry) (st2 : RState),
        st2.inFlight = some q → rstep st2 .trigger = st2 := by
  obtain ⟨pend, infl, sentLog⟩ := st
  simp only at hin hne ⊢
  subst hin
  have hemp : pend.isEmpty = false := by
    cases pend with
    | nil => exact absurd rfl hne
    | cons a l => rfl
  have h1 : rstep ⟨pend, none, sentLog⟩ .trigger
      = ⟨[], some pend, sentLog ++ [pend]⟩ := by
    simp [rstep, hemp]
  have h2 : rstep ⟨[], some pend, sentLog ++ [pend]⟩ .trigger
      = ⟨[], some pend, sentLog ++ [pend]⟩ := rfl
  refine ⟨?_, ?_, ?_⟩
  · show rstep (rstep ⟨pend, none, sentLog⟩ .trigger) .trigger = _
    rw [h1, h2]
  · show (rstep (rstep ⟨pend, none, sentLog⟩ .trigger) .trigger).sent.length = _
    rw [h1, h2]
    simp
  · intro q st2 h2'
    obtain ⟨pend2, infl2, sent2⟩ := st2
    simp only at h2'
    subst h2'
    rfl

/-- Concrete instance of C8: one pending change, two triggers, one
outbound payload. -/
theorem at_most_one_sync_in_flight_witness :
    runR ⟨[⟨1, 70, 2, 100, 5⟩], none, []⟩ [.trigger, .trigger]
        = ⟨[], some (RState.mk [⟨1, 70, 2, 100, 5⟩] none []).pending,
            (RState.mk [⟨1, 70, 2, 100, 5⟩] none []).sent
              ++ [(RState.mk [⟨1, 70, 2, 100, 5⟩] none []).pending]⟩ ∧
      (runR ⟨[⟨1, 70, 2, 100, 5⟩], none, []⟩ [.trigger, .trigger]).sent.length
        = (RState.mk [⟨1, 70, 2, 100, 5⟩] none []).sent.length + 1 ∧
      ∀ (q : List ProgressEntry) (st2 : RState),
        st2.inFlight = some q → rstep st2 .trigger = st2 :=
  at_most_one_sync_in_flight ⟨[⟨1, 70, 2, 100, 5⟩], none, []⟩
    rfl (by decide)

/-- The status string the presentation layer observes for a reconciler
status. -/
def statusString : SyncStatus → String
  | .idle => "idle"
  | .syncing => "syncing"
  | .synced => "synced"
  | .offline => "offline"
  | .error => "error"

/-- Modelled from the spec: after a terminal state is observed by the
caller, the status returns to `idle` (§4.2 state machine). -/
def observeStatus : SyncStatus → SyncStatus
  | .synced => .idle
  | .offline => .idle
  | .error => .idle
  | s => s

/-- The frontend's view of the current device profile: only the
selected avatar matters to `App.jsx`. -/
structure FrontProfile where
  avatar : Option Nat
deriving DecidableEq, Repr

/-- The pieces of `App` component state that `frontend/src/App.jsx`
reads when rendering: the two `useState` flags, the hook-provided
readiness flags and sync status, the current profile and avatar list. -/
structure AppState where
  isLoading : Bool
  storageReady : Bool
  isProfileReady : Bool
  showAvatarSelection : Bool
  syncStatus : Option String
  currentProfile : Option FrontProfile
  avatars : List Nat
deriving DecidableEq, Repr

/-- Embedded from `frontend/src/App.jsx` lines 120–147: the sync status
indicator is rendered exactly when `syncStatus && syncStatus !== 'idle'`
— a truthy (non-null, non-empty) status different from "idle". -/
def showSyncIndicator : Option String → Bool
  | none => false
  | some s => !(s == "") && !(s == "idle")

/-- What the `App` component returns. -/
inductive Screen
  | loading
  | avatarSelection
  | mainRoutes
deriving DecidableEq, Repr

/-- Embedded from `frontend/src/App.jsx` lines 72–202: the loading
screen while `isLoading || !storageReady || !isProfileReady`, the
avatar-selection screen while `showAvatarSelection`, and otherwise the
router with the main routes (the sync indicator is an overlay inside
that return, never a gate on the routes). -/
def renderScreen (st : AppState) : Screen :=
  if st.isLoading || !st.storageReady || !st.isProfileReady then .loading
  else if st.showAvatarSelection then .avatarSelection
  else .mainRoutes

/-- Embedded from `frontend/src/App.jsx` line 51: the avatar-selection
screen is requested when `!currentProfile?.avatar && avatars.length > 0`. -/
def needsAvatarSelection (cp : Option FrontProfile)
    (avatars : List Nat) : Bool :=
  (match cp with
   | none => true
   | some p => p.avatar.isNone) && decide (0 < avatars.length)

/-- Embedded from `frontend/src/App.jsx` line 83: the selection screen's
skip option is `!!currentProfile?.avatar`. -/
def canSkipAvatarSelection (cp : Option FrontProfile) : Bool :=
  match cp with
  | none => false
  | some p => p.avatar.isSome

/-- The selected avatar of the current profile, if any. -/
def avatarOf (cp : Option FrontProfile) : Option Nat :=
  match cp with
  | none => none
  | some p => p.avatar

/-- Modelled from the spec: `setCurrentAvatar` of the device-profile
hook (implementation file absent) — store the chosen avatar identifier
on the current profile. -/
def setCurrentAvatar (cp : Option FrontProfile) (avatarId : Nat) :
    Option FrontProfile :=
  match cp with
  | none => some ⟨some avatarId⟩
  | some p => some { p with avatar := some avatarId }

/-- Embedded from `frontend/src/App.jsx` lines 41–64 (`initializeApp`):
once storage is ready, request avatar selection when the profile has no
avatar and avatars are available, then clear the loading flag. -/
def initializeApp (st : AppState) : AppState :=
  if st.storageReady = false then st
  else if needsAvatarSelection st.currentProfile st.avatars then
    { st with showAvatarSelection := true, isLoading := false }
  else { st with isLoading := false }

/-- Embedded from `frontend/src/App.jsx` lines 67–70
(`handleAvatarSelected`): store the chosen avatar and dismiss the
selection screen. -/
def handleAvatarSelected (st : AppState) (avatarId : Nat) : AppState :=
  { st with
    currentProfile := setCurrentAvatar st.currentProfile avatarId
    showAvatarSelection := false }

/-- C9: the sync status only ever takes the five values idle, syncing,
synced, offline, error; each terminal value returns to idle once
observed; `App.jsx` renders the status indicator exactly when the
status is not idle; and the screen the app renders never depends on the
sync status — the routes are never blocked by it. -/
theorem sync_status_indicator_nonblocking :
    (∀ s : SyncStatus, s = .idle ∨ s = .syncing ∨ s = .synced ∨
        s = .offline ∨ s = .error) ∧
    (observeStatus .synced = .idle ∧ observeStatus .offline = .idle ∧
      observeStatus .error = .idle) ∧
    (∀ s : SyncStatus,
        showSyncIndicator (some (statusString s)) = decide (s ≠ .idle)) ∧
    (∀ (st : AppState) (s2 : Option String),
        renderScreen { st with syncStatus := s2 } = renderScreen st) := by
  refine ⟨?_, ⟨rfl, rfl, rfl⟩, ?_, ?_⟩
  · intro s
    cases s
    · exact Or.inl rfl
    · exact Or.inr (Or.inl rfl)
    · exact Or.inr (Or.inr (Or.inl rfl))
    · exact Or.inr (Or.inr (Or.inr (Or.inl rfl)))
    · exact Or.inr (Or.inr (Or.inr (Or.inr rfl)))
  · intro s
    cases s <;> rfl
  · intro st s2
    rfl

/-- C10: on app start the avatar-selection screen is shown iff the
profile has no selected avatar and the avatar list is non-empty, with
skipping disabled in that case; selecting an avatar stores it on the
profile and dismisses the screen; with an avatar already selected the
main routes render directly. -/
theorem avatar_selection_flow (st : AppState) (avatarId : Nat)
    (hs : st.storageReady = true) (hp : st.isProfileReady = true)
    (h0 : st.showAvatarSelection = false) :
    (renderScreen (initializeApp st) = .avatarSelection ↔
      (canSkipAvatarSelection st.currentProfile = false ∧
        st.avatars ≠ [])) ∧
    (renderScreen (initializeApp st) = .avatarSelection →
      canSkipAvatarSelection (initializeApp st).currentProfile = false) ∧
    (avatarOf (handleAvatarSelected (initializeApp st) avatarId).currentProfile
        = some avatarId ∧
      (handleAvatarSelected (initializeApp st) avatarId).showAvatarSelection
        = false ∧
      renderScreen (handleAvatarSelected (initializeApp st) avatarId)
        = .mainRoutes) ∧
    (canSkipAvatarSelection st.currentProfile = true →
      renderScreen (initializeApp st) = .mainRoutes) := by
  obtain ⟨il, sr, pr, sas, ss, cp, avs⟩ := st
  simp only at hs hp h0
  subst hs
  subst hp
  subst h0
  cases cp with
  | none =>
    cases avs <;>
      simp [initializeApp, needsAvatarSelection, renderScreen,
        canSkipAvatarSelection, handleAvatarSelected, setCurrentAvatar,
        avatarOf]
  | some fp =>
    obtain ⟨av⟩ := fp
    cases av <;> cases avs <;>
      simp [initializeApp, needsAvatarSelection, renderScreen,
        canSkipAvatarSelection, handleAvatarSelected, setCurrentAvatar,
        avatarOf]

/-- Concrete instance of C10: a fresh profile with no avatar and two
available avatars sees the selection screen, cannot skip it, and
selecting avatar 1 stores it and moves to the main routes. -/
theorem avatar_selection_flow_witness :
    (renderScreen (initializeApp
          ⟨true, true, true, false, some "idle", none, [1, 2]⟩)
        = .avatarSelection ↔
      (canSkipAvatarSelection
          (AppState.mk true true true false (some "idle") none [1, 2]).currentProfile
        = false ∧
        (AppState.mk true true true false (some "idle") none [1, 2]).avatars
          ≠ [])) ∧
    (renderScreen (initializeApp
          ⟨true, true, true, false, some "idle", none, [1, 2]⟩)
        = .avatarSelection →
      canSkipAvatarSelection (initializeApp
          ⟨true, true, true, false, some "idle", none, [1, 2]⟩).currentProfile
        = false) ∧
    (avatarOf (handleAvatarSelected (initializeApp
            ⟨true, true, true, false, some "idle", none, [1, 2]⟩)
          1).currentProfile = some 1 ∧
      (handleAvatarSelected (initializeApp
            ⟨true, true, true, false, some "idle", none, [1, 2]⟩)
          1).showAvatarSelection = false ∧
      renderScreen (handleAvatarSelected (initializeApp
            ⟨true, true, true, false, some "idle", none, [1, 2]⟩) 1)
        = .mainRoutes) ∧
    (canSkipAvatarSelection
        (AppState.mk true true true false (some "idle") none [1, 2]).currentProfile
        = true →
      renderScreen (initializeApp
          ⟨true, true, true, false, some "idle", none, [1, 2]⟩)
        = .mainRoutes) :=
  avatar_selection_flow ⟨true, true, true, false, some "idle", none, [1, 2]⟩
    1 rfl rfl rfl

end Gamified
